import Mathlib

/-!
Shallow embedding of the vivopaint drawing demo (src/src/main.rs).

The program keeps a `State` with a point list `positions`, a boolean
`drawing` flag and a render `cache`.  `Painter::update` mutates that state
in response to `Message`s; `State::update` (the canvas program) classifies
raw pointer/keyboard events into `Message`s; `State::draw` renders the
point list as a single stroked polyline through the cache.

Points carry `f32` coordinates in the source, but no arithmetic is ever
performed on them — they are appended, stored and copied verbatim — so we
embed coordinates as `Int`, which is faithful for every data-flow and
control-flow property considered here.  The render cache stores the
geometry recorded by the frame closure; `cache.clear()` empties it, and
`cache.draw` re-runs the closure only when the cache is empty.  We embed
the cache as `Option Geometry` accordingly.  `std::process::exit` on
`Message::Exit` is embedded by returning `none` from the update function.
-/

/-- A 2D point (source: `iced::Point`, `f32` coordinates; no arithmetic is
done on them, so `Int` coordinates are a faithful carrier). -/
structure Point where
  x : Int
  y : Int
deriving DecidableEq, Repr

/-- One path-building command (source: `canvas::path::Builder`'s
`move_to` / `line_to` calls). -/
inductive PathCmd where
  | moveTo (p : Point)
  | lineTo (p : Point)
deriving DecidableEq, Repr

/-- A built path: the list of builder commands in order. -/
abbrev StrokedPath := List PathCmd

/-- The geometry recorded in one frame: the list of paths stroked onto the
frame, in order.  (The visual style — translucent red, width 10, round
caps/joins — is a fixed constant in the source and carries no data we
reason about.) -/
abbrev Geometry := List StrokedPath

/-- The render cache (source: `canvas::Cache`): `none` after `clear()`
(invalidated), `some g` when it holds recorded geometry `g`. -/
structure Cache where
  geometry : Option Geometry
deriving DecidableEq, Repr

/-- `canvas::Cache::new()`: starts empty. -/
def Cache.new : Cache := ⟨none⟩

/-- `canvas::Cache::clear()`: invalidates the cached geometry. -/
def Cache.clearCache (_ : Cache) : Cache := ⟨none⟩

/-- The application state (source: `struct State`). -/
structure State where
  cache : Cache
  positions : List Point
  drawing : Bool
deriving DecidableEq, Repr

/-- `State::new()`: empty cache, no positions, not drawing. -/
def State.new : State :=
  { cache := Cache.new, positions := [], drawing := false }

/-- The message type (source: `enum Message`). -/
inductive Message where
  | leftButtonDown (position : Point)
  | leftButtonUp
  | mouseDragged (position : Point)
  | reset
  | exit
deriving DecidableEq, Repr

/-- `Painter::update` (src/src/main.rs lines 106–135): mutates the state
in response to a message.  `Message::Exit` calls `std::process::exit(0)`,
embedded as `none` (no successor state). -/
def Painter.update (s : State) (message : Message) : Option State :=
  match message with
  | Message.leftButtonDown position =>
      some { s with
              positions := s.positions ++ [position]
              cache := s.cache.clearCache
              drawing := true }
  | Message.mouseDragged position =>
      if s.drawing then
        some { s with
                positions := s.positions ++ [position]
                cache := s.cache.clearCache }
      else
        some s
  | Message.leftButtonUp =>
      some { s with drawing := false }
  | Message.reset =>
      some { s with positions := [], cache := s.cache.clearCache }
  | Message.exit => none

/-- Process a sequence of messages in call order, stopping (with `none`)
if the process exits. -/
def Painter.updateAll (s : State) : List Message → Option State
  | [] => some s
  | m :: ms =>
      match Painter.update s m with
      | some s' => Painter.updateAll s' ms
      | none => none

/-- The frame closure passed to `cache.draw` in `State::draw`
(src/src/main.rs lines 215–244): with fewer than 2 points it returns
before building anything; otherwise it builds one path (`move_to` the
first point, `line_to` each subsequent point, by index) and strokes it. -/
def buildPathCmds : Nat → List Point → List PathCmd
  | _, [] => []
  | index, p :: ps =>
      (match index with
        | 0 => PathCmd.moveTo p
        | _ => PathCmd.lineTo p) :: buildPathCmds (index + 1) ps

/-- The geometry the frame closure records for a given point list. -/
def frameDraw (positions : List Point) : Geometry :=
  if positions.length < 2 then []
  else [buildPathCmds 0 positions]

/-- `canvas::Cache::draw`: return the cached geometry if present,
otherwise run the frame closure on the current positions and cache the
result.  Returns the produced geometry and the updated cache. -/
def Cache.drawWith (c : Cache) (positions : List Point) : Geometry × Cache :=
  match c.geometry with
  | some g => (g, c)
  | none =>
      let g := frameDraw positions
      (g, ⟨some g⟩)

/-- `State::draw` (src/src/main.rs lines 206–247): draws through the
cache and returns `vec![path_shape]` — a single geometry — together with
the cache as updated by the draw. -/
def State.draw (s : State) : List Geometry × State :=
  let (pathShape, c') := s.cache.drawWith s.positions
  ([pathShape], { s with cache := c' })

/-! ### Input classifier (`State::update`, the canvas program) -/

/-- Mouse buttons (source: `iced::mouse::Button`; only `Left` is named in
the match, everything else falls to the wildcard arm). -/
inductive MouseButton where
  | left
  | right
  | middle
  | other
deriving DecidableEq, Repr

/-- Mouse events the classifier matches on (source: `iced::mouse::Event`;
unmatched variants fall to the wildcard arm, represented by `other`). -/
inductive MouseEvent where
  | buttonPressed (b : MouseButton)
  | cursorMoved (position : Point)
  | buttonReleased (b : MouseButton)
  | other
deriving DecidableEq, Repr

/-- Key codes (source: `iced::keyboard::KeyCode`; only `Escape` and `R`
are named, everything else falls to the wildcard arm). -/
inductive KeyCode where
  | escape
  | r
  | other
deriving DecidableEq, Repr

/-- Keyboard events (source: `iced::keyboard::Event`; only `KeyPressed`
is named). -/
inductive KeyboardEvent where
  | keyPressed (keyCode : KeyCode)
  | other
deriving DecidableEq, Repr

/-- Raw canvas events (source: `canvas::event::Event`): mouse, keyboard,
or anything else (touch), which falls to the wildcard arm. -/
inductive RawEvent where
  | mouse (e : MouseEvent)
  | keyboard (e : KeyboardEvent)
  | other
deriving DecidableEq, Repr

/-- Event status returned to the host (source: `canvas::event::Status`). -/
inductive EventStatus where
  | captured
  | ignored
deriving DecidableEq, Repr

/-- The input classifier `State::update` (src/src/main.rs lines 152–204).
`cursor` is the host cursor; `cursor.position()` yields `Option Point`.
The `ButtonPressed(Left)` arm calls `.unwrap()` on it: a missing position
there panics, embedded as `none`.  Every other arm is total. -/
def classifyEvent (event : RawEvent) (cursor : Option Point) :
    Option (EventStatus × Option Message) :=
  match event with
  | RawEvent.mouse mouseEvent =>
      match mouseEvent with
      | MouseEvent.buttonPressed MouseButton.left =>
          match cursor with
          | some position =>
              some (EventStatus.captured, some (Message.leftButtonDown position))
          | none => none
      | MouseEvent.cursorMoved position =>
          some (EventStatus.captured, some (Message.mouseDragged position))
      | MouseEvent.buttonReleased MouseButton.left =>
          some (EventStatus.captured, some Message.leftButtonUp)
      | _ => some (EventStatus.ignored, none)
  | RawEvent.keyboard keyboardEvent =>
      match keyboardEvent with
      | KeyboardEvent.keyPressed keyCode =>
          match keyCode with
          | KeyCode.escape => some (EventStatus.captured, some Message.exit)
          | KeyCode.r => some (EventStatus.captured, some Message.reset)
          | _ => some (EventStatus.ignored, none)
      | _ => some (EventStatus.ignored, none)
  | _ => some (EventStatus.ignored, none)

/-! ### Specification-side helpers for the claims -/

/-- The stroke-lifecycle intents of the spec's accumulator (stroke-start,
stroke-extend, stroke-end), as a subset of the message alphabet. -/
inductive StrokeIntent where
  | start (p : Point)
  | extend (p : Point)
  | strokeEnd
deriving DecidableEq, Repr

/-- How each stroke intent arrives as a message. -/
def StrokeIntent.toMsg : StrokeIntent → Message
  | StrokeIntent.start p => Message.leftButtonDown p
  | StrokeIntent.extend p => Message.mouseDragged p
  | StrokeIntent.strokeEnd => Message.leftButtonUp

/-- Specification function for the claim as written: the concatenation,
in call order, of all positions passed to start/extend intents. -/
def intentPositions : List StrokeIntent → List Point
  | [] => []
  | StrokeIntent.start p :: rest => p :: intentPositions rest
  | StrokeIntent.extend p :: rest => p :: intentPositions rest
  | StrokeIntent.strokeEnd :: rest => intentPositions rest

/-- Specification function for the amended claim: the concatenation, in
call order, of the positions of all start intents and of those extend
intents that arrive while the drawing flag (tracked from `d`) is set. -/
def effectivePositions (d : Bool) : List StrokeIntent → List Point
  | [] => []
  | StrokeIntent.start p :: rest => p :: effectivePositions true rest
  | StrokeIntent.extend p :: rest =>
      if d then p :: effectivePositions d rest else effectivePositions d rest
  | StrokeIntent.strokeEnd :: rest => effectivePositions false rest

/-- Key lemma for C1: processing any sequence of stroke intents from any
state never exits, and appends exactly the effective positions. -/
theorem updateAll_strokeIntents (seq : List StrokeIntent) :
    ∀ s : State, ∃ s' : State,
      Painter.updateAll s (seq.map StrokeIntent.toMsg) = some s' ∧
      s'.positions = s.positions ++ effectivePositions s.drawing seq := by
  induction seq with
  | nil =>
      intro s
      exact ⟨s, rfl, by simp [effectivePositions]⟩
  | cons i rest ih =>
      intro s
      cases i with
      | start p =>
          obtain ⟨s', h1, h2⟩ :=
            ih { s with positions := s.positions ++ [p]
                        cache := s.cache.clearCache
                        drawing := true }
          refine ⟨s', ?_, ?_⟩
          · simpa [StrokeIntent.toMsg, Painter.updateAll, Painter.update] using h1
          · simp only [h2, effectivePositions]
            simp
      | extend p =>
          cases hd : s.drawing with
          | true =>
              obtain ⟨s', h1, h2⟩ :=
                ih { s with positions := s.positions ++ [p]
                            cache := s.cache.clearCache }
              refine ⟨s', ?_, ?_⟩
              · simpa [StrokeIntent.toMsg, Painter.updateAll, Painter.update, hd]
                  using h1
              · simp only [h2, effectivePositions, hd]
                simp
          | false =>
              obtain ⟨s', h1, h2⟩ := ih s
              refine ⟨s', ?_, ?_⟩
              · simpa [StrokeIntent.toMsg, Painter.updateAll, Painter.update, hd]
                  using h1
              · simp [h2, effectivePositions, hd]
      | strokeEnd =>
          obtain ⟨s', h1, h2⟩ := ih { s with drawing := false }
          refine ⟨s', ?_, ?_⟩
          · simpa [StrokeIntent.toMsg, Painter.updateAll, Painter.update] using h1
          · simp only [h2, effectivePositions]

/-! ### Interaction steps and the cache-coherence invariant -/

/-- One interaction step of the running application: a message processed
by `Painter::update`, or a render pass (`State::draw` invoked by the
host's redraw cycle). -/
inductive AppStep where
  | intent (m : Message)
  | render
deriving DecidableEq, Repr

/-- Apply one interaction step to the state. -/
def runStep (s : State) : AppStep → Option State
  | AppStep.intent m => Painter.update s m
  | AppStep.render => some (State.draw s).2

/-- Run a sequence of interaction steps in order. -/
def runSteps (s : State) : List AppStep → Option State
  | [] => some s
  | st :: rest =>
      match runStep s st with
      | some s' => runSteps s' rest
      | none => none

/-- Cache coherence: the cache is either invalidated or holds exactly the
frame geometry of the current positions. -/
def cacheOK (s : State) : Prop :=
  s.cache.geometry = none ∨ s.cache.geometry = some (frameDraw s.positions)

theorem cacheOK_new : cacheOK State.new := Or.inl rfl

/-- Every interaction step preserves cache coherence. -/
theorem cacheOK_runStep {s s' : State} (st : AppStep)
    (hok : cacheOK s) (h : runStep s st = some s') : cacheOK s' := by
  cases st with
  | intent m =>
      cases m with
      | leftButtonDown p =>
          simp only [runStep, Painter.update, Option.some.injEq] at h
          exact h ▸ Or.inl rfl
      | mouseDragged p =>
          by_cases hd : s.drawing = true
          · simp only [runStep, Painter.update, hd, if_true, Option.some.injEq] at h
            exact h ▸ Or.inl rfl
          · simp only [runStep, Painter.update, if_neg hd, Option.some.injEq] at h
            exact h ▸ hok
      | leftButtonUp =>
          simp only [runStep, Painter.update, Option.some.injEq] at h
          exact h ▸ hok
      | reset =>
          simp only [runStep, Painter.update, Option.some.injEq] at h
          exact h ▸ Or.inl rfl
      | exit =>
          simp [runStep, Painter.update] at h
  | render =>
      simp only [runStep, Option.some.injEq] at h
      cases hc : s.cache.geometry with
      | some g =>
          have h2 : (State.draw s).2 = s := by
            simp [State.draw, Cache.drawWith, hc]
          rw [← h, h2]
          exact hok
      | none =>
          have h2 : (State.draw s).2 =
              { s with cache := ⟨some (frameDraw s.positions)⟩ } := by
            simp [State.draw, Cache.drawWith, hc]
          rw [← h, h2]
          exact Or.inr rfl

/-- Cache coherence holds along every sequence of interaction steps. -/
theorem cacheOK_runSteps (steps : List AppStep) :
    ∀ s s' : State, cacheOK s → runSteps s steps = some s' → cacheOK s' := by
  induction steps with
  | nil =>
      intro s s' hok h
      simp only [runSteps, Option.some.injEq] at h
      exact h ▸ hok
  | cons st rest ih =>
      intro s s' hok h
      simp only [runSteps] at h
      cases hstep : runStep s st with
      | some s1 =>
          rw [hstep] at h
          exact ih s1 s' (cacheOK_runStep st hok hstep) h
      | none =>
          rw [hstep] at h
          exact absurd h (by simp)

/-- On a coherent state, the render pass outputs exactly the frame
geometry of the current positions. -/
theorem draw_fresh {s : State} (hok : cacheOK s) :
    (State.draw s).1 = [frameDraw s.positions] := by
  rcases hok with hc | hc <;> simp [State.draw, Cache.drawWith, hc]

/-! ### Claims -/

/-- C1 (counterexample): for the sequence start(10,10), end, extend(20,20)
the resulting Stroke is [(10,10)], not the concatenation
[(10,10),(20,20)] of all start/extend positions — the extend arrives
while Idle and is dropped, so the claim as stated fails. -/
theorem C1_counterexample :
    Option.map State.positions
        (Painter.updateAll State.new
          (List.map StrokeIntent.toMsg
            [StrokeIntent.start ⟨10, 10⟩, StrokeIntent.strokeEnd,
             StrokeIntent.extend ⟨20, 20⟩])) ≠
      some (intentPositions
        [StrokeIntent.start ⟨10, 10⟩, StrokeIntent.strokeEnd,
         StrokeIntent.extend ⟨20, 20⟩]) := by
  decide

/-- C1 (amended): for every sequence of stroke-start/extend/end intents
processed from the initial empty state, the resulting Stroke equals the
concatenation, in call order, of the positions of all stroke-start
intents and of those stroke-extend intents that arrive while in the
Drawing state; stroke-end intents never remove positions. -/
theorem C1_stroke_concatenation (seq : List StrokeIntent) :
    ∃ s' : State,
      Painter.updateAll State.new (List.map StrokeIntent.toMsg seq) = some s' ∧
      s'.positions = effectivePositions false seq := by
  obtain ⟨s', h1, h2⟩ := updateAll_strokeIntents seq State.new
  exact ⟨s', h1, by simpa [State.new] using h2⟩

/-- C2 (counterexample): processing clear in the Drawing state (reached by
start(10,10)) leaves DrawingState = true, not the Idle state the claim
asserts. -/
theorem C2_counterexample :
    Option.map State.drawing
        (Painter.updateAll State.new
          [Message.leftButtonDown ⟨10, 10⟩, Message.reset]) ≠
      some false := by
  decide

/-- C2 (amended): processing a clear intent in any state empties the
Stroke and invalidates the RenderCache, but leaves DrawingState
unchanged (so the accumulator is in the Idle state afterwards only if it
already was). -/
theorem C2_clear_effect (s : State) :
    Painter.update s Message.reset =
      some { cache := ⟨none⟩, positions := [], drawing := s.drawing } := rfl

/-- C3: along every sequence of interaction steps from the initial state,
the cache-coherence invariant holds (the RenderCache is invalidated or
matches the current Stroke), so a render pass on the resulting state
outputs exactly the frame geometry of the current Stroke — never stale
geometry. -/
theorem C3_cache_coherence (steps : List AppStep) (s : State)
    (h : runSteps State.new steps = some s) :
    cacheOK s ∧ (State.draw s).1 = [frameDraw s.positions] := by
  have hok := cacheOK_runSteps steps State.new s cacheOK_new h
  exact ⟨hok, draw_fresh hok⟩

/-- C3 witness: a concrete run — start(1,2) then a render — on which the
theorem's hypothesis holds and its conclusion evaluates. -/
theorem C3_cache_coherence_witness :
    runSteps State.new [AppStep.intent (Message.leftButtonDown ⟨1, 2⟩)] =
        some { cache := ⟨none⟩, positions := [⟨1, 2⟩], drawing := true } ∧
    (cacheOK { cache := ⟨none⟩, positions := [⟨1, 2⟩], drawing := true } ∧
      (State.draw { cache := ⟨none⟩, positions := [⟨1, 2⟩], drawing := true }).1 =
        [frameDraw [⟨1, 2⟩]]) :=
  ⟨by decide,
   C3_cache_coherence [AppStep.intent (Message.leftButtonDown ⟨1, 2⟩)]
     { cache := ⟨none⟩, positions := [⟨1, 2⟩], drawing := true } (by decide)⟩

/-- C4: a Stroke with fewer than 2 points produces empty frame geometry —
no path is built and nothing is stroked. -/
theorem C4_min_vertex_guard (ps : List Point) (h : ps.length < 2) :
    frameDraw ps = [] := by
  simp [frameDraw, h]

/-- C4 witness: the guard at the concrete one-point stroke [(3,4)]. -/
theorem C4_min_vertex_guard_witness :
    ([(⟨3, 4⟩ : Point)].length < 2) ∧ frameDraw [⟨3, 4⟩] = [] :=
  ⟨by decide, C4_min_vertex_guard [⟨3, 4⟩] (by decide)⟩

/-- C5: the scenario start(10,10), extend(20,20), extend(30,10), end
yields Stroke = [(10,10),(20,20),(30,10)] with DrawingState = false, and
rendering that state produces a single path that moves to the first point
and draws line segments to the two subsequent points in insertion
order. -/
theorem C5_scenario :
    Painter.updateAll State.new
        [Message.leftButtonDown ⟨10, 10⟩, Message.mouseDragged ⟨20, 20⟩,
         Message.mouseDragged ⟨30, 10⟩, Message.leftButtonUp] =
      some { cache := ⟨none⟩,
             positions := [⟨10, 10⟩, ⟨20, 20⟩, ⟨30, 10⟩],
             drawing := false } ∧
    (State.draw { cache := ⟨none⟩,
                  positions := [⟨10, 10⟩, ⟨20, 20⟩, ⟨30, 10⟩],
                  drawing := false }).1 =
      [[[PathCmd.moveTo ⟨10, 10⟩, PathCmd.lineTo ⟨20, 20⟩,
         PathCmd.lineTo ⟨30, 10⟩]]] := by
  decide

/-- C6: clear is idempotent — after each of two consecutive clears the
Stroke is empty, and clearing an already-empty Stroke succeeds and leaves
it empty. -/
theorem C6_clear_idempotent (s : State) :
    ∃ s1 s2 : State,
      Painter.update s Message.reset = some s1 ∧ s1.positions = [] ∧
      Painter.update s1 Message.reset = some s2 ∧ s2.positions = [] :=
  ⟨_, _, rfl, rfl, rfl, rfl⟩

/-- C7: a stroke-extend received while Idle (drawing = false) leaves the
entire state unchanged — positions, drawing flag and cache included. -/
theorem C7_extend_idle_noop (s : State) (p : Point) (h : s.drawing = false) :
    Painter.update s (Message.mouseDragged p) = some s := by
  simp [Painter.update, h]

/-- C7 witness: extend(5,5) from the initial (Idle) state. -/
theorem C7_extend_idle_noop_witness :
    State.new.drawing = false ∧
    Painter.update State.new (Message.mouseDragged ⟨5, 5⟩) = some State.new :=
  ⟨rfl, C7_extend_idle_noop State.new ⟨5, 5⟩ rfl⟩

/-- C8: in every state, stroke-end sets the drawing flag to false and
changes nothing else — the positions sequence and the cache are
untouched. -/
theorem C8_end_no_stroke_effect (s : State) :
    Painter.update s Message.leftButtonUp =
      some { cache := s.cache, positions := s.positions, drawing := false } := rfl

/-- C9: if every left-button press arrives with a cursor position, the
input classifier never reaches its fatal unwrap; and conversely the only
input on which it is partial is a left-button press with no cursor
position. -/
theorem C9_press_unwrap_only_fallible (ev : RawEvent) (cursor : Option Point) :
    ((ev = RawEvent.mouse (MouseEvent.buttonPressed MouseButton.left) →
        cursor.isSome) → (classifyEvent ev cursor).isSome) ∧
    (classifyEvent ev cursor = none →
      ev = RawEvent.mouse (MouseEvent.buttonPressed MouseButton.left) ∧
        cursor = none) := by
  rcases ev with me | ke | _
  · rcases me with b | p | b | _
    · rcases b with _ | _ | _ | _ <;> rcases cursor with _ | p <;>
        simp [classifyEvent]
    · simp [classifyEvent]
    · rcases b with _ | _ | _ | _ <;> simp [classifyEvent]
    · simp [classifyEvent]
  · rcases ke with k | _
    · rcases k with _ | _ | _ <;> simp [classifyEvent]
    · simp [classifyEvent]
  · simp [classifyEvent]

/-- C9 witness: a left-button press with a present cursor position is
classified without reaching the fatal case. -/
theorem C9_press_unwrap_only_fallible_witness :
    (classifyEvent (RawEvent.mouse (MouseEvent.buttonPressed MouseButton.left))
      (some ⟨1, 2⟩)).isSome :=
  (C9_press_unwrap_only_fallible (RawEvent.mouse (MouseEvent.buttonPressed MouseButton.left))
    (some ⟨1, 2⟩)).1 (fun _ => rfl)

/-- C10: a stroke-start received while already Drawing behaves exactly as
from Idle: it appends the position, invalidates the cache and keeps the
drawing flag set. -/
theorem C10_start_while_drawing (s : State) (p : Point) (_h : s.drawing = true) :
    Painter.update s (Message.leftButtonDown p) =
      some { cache := ⟨none⟩, positions := s.positions ++ [p], drawing := true } :=
  rfl

/-- C10 witness: starting at a Drawing state holding [(1,1)], a second
start(2,2) appends and stays Drawing. -/
theorem C10_start_while_drawing_witness :
    (({ cache := ⟨none⟩, positions := [⟨1, 1⟩], drawing := true } : State).drawing
        = true) ∧
    Painter.update { cache := ⟨none⟩, positions := [⟨1, 1⟩], drawing := true }
        (Message.leftButtonDown ⟨2, 2⟩) =
      some { cache := ⟨none⟩, positions := [⟨1, 1⟩, ⟨2, 2⟩], drawing := true } :=
  ⟨rfl, C10_start_while_drawing
    { cache := ⟨none⟩, positions := [⟨1, 1⟩], drawing := true } ⟨2, 2⟩ rfl⟩
